import Mathlib

/-
  Verification of the llm-forge streaming-parser layer and the Agentics
  execution-context layer against their natural-language specification.

  The streaming code is embedded from the provider implementations printed in
  tests/reports/streaming-qa-report.md (the TogetherProvider current
  parseStreamChunk, and the HuggingFaceProvider validateStreamChunk /
  parseStreamChunk reference implementations); the execution-context code is
  embedded from src/service/execution-context.ts.  JavaScript JSON payloads are
  modelled by the inductive type Json below; JavaScript exceptions (TypeError
  on property access through null, the only throwing operations reachable in
  the embedded code) are modelled by Except.
-/

set_option maxRecDepth 2000

/-- Json models one already-deserialized JavaScript JSON value, the input
contract of parseStreamChunk and validateStreamChunk.  JavaScript undefined is
not a Json value; it is represented by Option.none at the access sites that
can produce it. -/
inductive Json where
  | null
  | bool (b : Bool)
  | num (n : Int)
  | str (s : String)
  | arr (elems : List Json)
  | obj (fields : List (String × Json))

/-- Property read obj[k] on an object, yielding none for undefined.  Named
fields are absent on arrays and primitives (access yields undefined there,
which getField models by returning none for every non-object). -/
def Json.getField : Json → String → Option Json
  | .obj fields, k => fields.lookup k
  | _, _ => none

/-- The JavaScript test (k in obj); false on arrays for the non-index keys
used by the parsers, and never applied to primitives by the embedded code
without an object guard. -/
def Json.hasField (j : Json) (k : String) : Bool :=
  match j with
  | .obj fields => fields.any (fun p => p.1 == k)
  | _ => false

/-- JavaScript truthiness of a JSON value (NaN does not arise from parsed
JSON and is not modelled). -/
def Json.truthy : Json → Bool
  | .null => false
  | .bool b => b
  | .num n => n != 0
  | .str s => s != ""
  | .arr _ => true
  | .obj _ => true

/-- Truthiness of a possibly-undefined value (undefined is falsy). -/
def truthyOpt : Option Json → Bool
  | none => false
  | some j => j.truthy

/-- Array.isArray(obj.k) composed with the property read: true exactly when
the possibly-undefined value is an array.  Testing presence first, as the
embedded code does with ('choices' in obj && Array.isArray(obj.choices)),
is equivalent, because undefined is not an array. -/
def isJsonArray : Option Json → Bool
  | some (.arr _) => true
  | _ => false

/-- The JavaScript expression a || b for a possibly-undefined a. -/
def jsOr (a : Option Json) (b : Json) : Json :=
  match a with
  | some v => if v.truthy then v else b
  | none => b

/-- Property read base.k where base may be null: throws TypeError on null,
returns undefined (none) on primitives and arrays, looks the key up on
objects.  This is the one JavaScript operation in the embedded parse code
that can raise. -/
def jsGet (base : Json) (k : String) : Except String (Option Json) :=
  match base with
  | .null => .error ("TypeError: cannot read properties of null (reading " ++ k ++ ")")
  | .obj _ => .ok (base.getField k)
  | other => .ok (other.getField k)

/-- The JavaScript test (k in base), which throws TypeError when base is null
or a primitive. -/
def jsIn (k : String) (base : Json) : Except String Bool :=
  match base with
  | .null => .error "TypeError: cannot use in operator on null"
  | .obj _ => .ok (base.hasField k)
  | .arr _ => .ok false
  | _ => .error "TypeError: cannot use in operator on a primitive"

/-- NormalizedStopReason, the closed enumeration of the unified data model. -/
inductive NormalizedStopReason where
  | stop
  | length
  | tool_calls
  | content_filter
  | error
  | unknown
deriving DecidableEq

/-- ErrorKind, the kind component of NormalizedError. -/
inductive ErrorKind where
  | auth
  | rate_limit
  | model_unavailable
  | invalid_request
  | provider_error
  | unknown
deriving DecidableEq

/-- NormalizedError: kind, human message, optional provider-native code, and
a retryability flag. -/
structure NormalizedError where
  kind : ErrorKind
  message : String
  code : Option String
  retryable : Bool
deriving DecidableEq

/-- ModelInfo: canonical model identifier plus originating provider tag. -/
structure ModelInfo where
  id : String
  provider : String
deriving DecidableEq

/-- StreamChunk, the tagged variant of stream events.  The fields mirror the
objects the embedded parsers push: content_block_delta carries the delta text
and, in the choice-walking branch, the choice's index (the token-based branch
pushes no index, hence the Option); message_stop carries the normalized stop
reason; content_block_start carries a tool-use descriptor.  The remaining
variants of the data model are listed for completeness; the embedded code
never constructs them. -/
inductive StreamChunk where
  | content_block_delta (text : Json) (index : Option Json)
  | content_block_start (toolId : Json) (name : Json) (args : Json) (index : Json)
  | content_block_stop (index : Json)
  | message_start
  | message_delta (stopReason : NormalizedStopReason)
  | message_stop (stopReason : NormalizedStopReason)
  | error

/-- Metadata of a UnifiedStreamResponse: timestamp and the completion flag
(absent when the parser does not set it, as in the Together current code). -/
structure StreamMetadata where
  timestamp : String
  complete : Option Bool
deriving DecidableEq

/-- UnifiedStreamResponse, the result of parsing one raw chunk. -/
structure UnifiedStreamResponse where
  id : Json
  provider : String
  model : ModelInfo
  chunks : List StreamChunk
  metadata : StreamMetadata
  error : Option NormalizedError

/-- Modelled from the spec: the single classification function of §4.6 that
converts provider-native error-type strings to NormalizedError.kind (its
implementation lives in the shared base-parser sources, which are not among
the bundled files).  Known type strings map to their kind; anything else
falls to unknown. -/
def classifyErrorKind (t : String) : ErrorKind :=
  if t == "rate_limit_error" then .rate_limit
  else if t == "authentication_error" then .auth
  else if t == "invalid_request_error" then .invalid_request
  else if t == "model_unavailable" then .model_unavailable
  else if t == "model_not_loaded" then .model_unavailable
  else if t == "provider_error" then .provider_error
  else .unknown

/-- Modelled from the spec: the extractError extraction primitive of §4.1
(implemented in the provider sources, which are not among the bundled files;
the report's parseStreamChunk implementations call it as
this.extractError(chunk)).  Per §4.1 and §4.3 it reads the top-level error
object when present, degrades gracefully to no error when the field is
absent, and never fails.  Rate-limit and model-availability conditions are
the retryable ones. -/
def extractError (chunk : Json) : Option NormalizedError :=
  match chunk.getField "error" with
  | none => none
  | some e =>
    if e.truthy then
      let kind := match e.getField "type" with
        | some (.str t) => classifyErrorKind t
        | _ => .unknown
      some { kind := kind
             message := (match e.getField "message" with
               | some (.str m) => m
               | _ => "")
             code := (match e.getField "code" with
               | some (.str c) => some c
               | _ => none)
             retryable := kind = .rate_limit ∨ kind = .model_unavailable }
    else none

/-- Modelled from the spec: the extractModelInfo extraction primitive of §4.1
(implemented in the provider sources, which are not among the bundled files):
ModelInfo is always derivable even from incomplete chunks, falling back to a
caller-supplied default when the chunk omits the model field (§3). -/
def extractModelInfo (chunk : Json) (provider fallback : String) : ModelInfo :=
  match chunk.getField "model" with
  | some (.str m) => { id := m, provider := provider }
  | _ => { id := fallback, provider := provider }

/-- Modelled from the spec: the single shared finish-reason mapping table of
§4.6 (it lives in the shared base-parser sources, which are not among the
bundled files).  It carries the canonical names of the closed enumeration
plus the provider-native variants the bundled material mentions. -/
def finishReasonTable : List (String × NormalizedStopReason) :=
  [("stop", .stop),
   ("length", .length),
   ("tool_calls", .tool_calls),
   ("function_call", .tool_calls),
   ("content_filter", .content_filter),
   ("error", .error),
   ("eos_token", .stop),
   ("stop_sequence", .stop),
   ("max_tokens", .length)]

/-- Modelled from the spec: normalizeStopReason converts a provider-native
finish-reason string through the shared table; unmapped values fall to
unknown rather than failing (§3, §4.6). -/
def normalizeStopReason (r : String) : NormalizedStopReason :=
  (finishReasonTable.lookup r).getD .unknown

/-- The embedded code passes choice.finish_reason (a JSON value) to
normalizeStopReason, whose table is keyed by strings; a non-string value
matches no table entry and falls to unknown. -/
def stopReasonOfJson : Json → NormalizedStopReason
  | .str s => normalizeStopReason s
  | _ => .unknown

namespace HuggingFaceProvider

/-- validateStreamChunk of the HuggingFace provider, embedded from the
implementation printed in tests/reports/streaming-qa-report.md (lines
894-924; the shorter variant at lines 289-306 has the same decision logic).
The JavaScript guard (!chunk or typeof chunk different from object) rejects
null and every primitive; arrays pass the guard but carry none of the named
fields, so every check is false on them and they fall through to the final
return false.  The addError diagnostic side channel does not affect the
returned value and is not modelled. -/
def validateStreamChunk (chunk : Json) : Bool :=
  match chunk with
  | .null => false
  | .bool _ => false
  | .num _ => false
  | .str _ => false
  | _ =>
    -- if (obj.error) return true;  (truthiness, not mere presence)
    if truthyOpt (chunk.getField "error") then true
    -- if ('token' in obj) return true;
    else if chunk.hasField "token" then true
    -- if ('choices' in obj && Array.isArray(obj.choices)) return true;
    else if isJsonArray (chunk.getField "choices") then true
    -- if ('generated_text' in obj || 'conversation' in obj) return true;
    else if chunk.hasField "generated_text" || chunk.hasField "conversation" then true
    else false

/-- One iteration of the TGI choice-walking loop of the HuggingFace
parseStreamChunk (report lines 944-959): reading choice.delta throws on a
null choice (the code writes choice.delta?.content, guarding only the
content read); a truthy delta content pushes a content_block_delta at
choice.index || 0; a truthy finish_reason pushes a message_stop with the
normalized stop reason. -/
def parseChoice (acc : List StreamChunk) (choice : Json) :
    Except String (List StreamChunk) := do
  let delta ← jsGet choice "delta"
  let contentOpt : Option Json :=
    match delta with
    | none => none
    | some .null => none
    | some d => d.getField "content"
  let acc ←
    if truthyOpt contentOpt then do
      let index ← jsGet choice "index"
      pure (acc ++ [StreamChunk.content_block_delta (contentOpt.getD .null)
        (some (jsOr index (.num 0)))])
    else pure acc
  let finishReason ← jsGet choice "finish_reason"
  if truthyOpt finishReason then
    pure (acc ++ [StreamChunk.message_stop (stopReasonOfJson (finishReason.getD .null))])
  else
    pure acc

/-- parseStreamChunk of the HuggingFace provider, embedded from the
implementation printed in tests/reports/streaming-qa-report.md (lines
929-985).  generateId and getCurrentTimestamp are effectful helpers of the
base parser; their results enter as the genId and timestamp parameters. -/
def parseStreamChunk (chunk : Json) (genId timestamp : String) :
    Except String UnifiedStreamResponse := do
  -- const error = this.extractError(chunk);
  let error := extractError chunk
  -- const isTGI = 'choices' in obj && Array.isArray(obj.choices);
  let hasChoices ← jsIn "choices" chunk
  let isTGI := hasChoices && isJsonArray (chunk.getField "choices")
  -- const isTokenBased = 'token' in obj;
  let isTokenBased ← jsIn "token" chunk
  -- const isConversational = 'conversation' in obj;  (computed, never read)
  let _isConversational ← jsIn "conversation" chunk
  let chunks ←
    if isTGI then
      let choices : List Json := match chunk.getField "choices" with
        | some (.arr xs) => xs
        | _ => []
      choices.foldlM parseChoice []
    else if isTokenBased then
      -- const token = obj.token as any; if (token?.text) push one delta
      let token := chunk.getField "token"
      let textOpt : Option Json :=
        match token with
        | none => none
        | some .null => none
        | some t => t.getField "text"
      pure (if truthyOpt textOpt then
        [StreamChunk.content_block_delta (textOpt.getD .null) none]
      else [])
    else
      pure []
  -- const isComplete = !!obj.generated_text || !!(obj as any).details?.finish_reason;
  let isComplete := truthyOpt (chunk.getField "generated_text") ||
    (match chunk.getField "details" with
     | none => false
     | some .null => false
     | some d => truthyOpt (d.getField "finish_reason"))
  pure { id := jsOr (chunk.getField "id") (.str genId)
         provider := "huggingface"
         model := extractModelInfo chunk "huggingface" "unknown"
         chunks := chunks
         metadata := { timestamp := timestamp, complete := some isComplete }
         error := error }

/-- Capability flags of the HuggingFace provider metadata, embedded from
tests/reports/streaming-qa-report.md lines 223-228. -/
structure Capabilities where
  streaming : Bool
  functionCalling : Bool
  toolUse : Bool
  vision : Bool
deriving DecidableEq

/-- The capability flags the HuggingFace getMetadata reports (report lines
223-228): streaming true, functionCalling false, toolUse false, vision
true. -/
def capabilities : Capabilities :=
  { streaming := true, functionCalling := false, toolUse := false, vision := true }

/-- The method inventory of the shipped HuggingFaceProvider class, embedded
from the report's implementation-completeness listing (lines 204-218): the
existing methods are listed; validateStreamChunk and parseStreamChunk are
marked as the two missing required abstract methods. -/
def implementedMethods : List String :=
  ["validateResponse", "parseResponse", "extractMessages", "extractUsage",
   "extractStopReason", "extractModelInfo", "extractError", "canHandle",
   "getMetadata"]

end HuggingFaceProvider

namespace TogetherProvider

/-- validateStreamChunk of the Together provider, embedded from the report's
description of the shipped code (line 245: it only checks that the chunk is
an object, which in JavaScript admits arrays and excludes null and
primitives). -/
def validateStreamChunk (chunk : Json) : Bool :=
  match chunk with
  | .obj _ => true
  | .arr _ => true
  | _ => false

/-- parseStreamChunk of the Together provider, embedded from the current
code printed in tests/reports/streaming-qa-report.md lines 994-1005: it
ignores the chunk, returns an empty chunks array, does not set the
completion flag, and extracts no error.  generateId and getCurrentTimestamp
enter as the genId and timestamp parameters. -/
def parseStreamChunk (chunk : Json) (genId timestamp : String) :
    Except String UnifiedStreamResponse :=
  let _ := chunk
  .ok { id := .str genId
        provider := "together"
        model := { id := "unknown", provider := "together" }
        chunks := []
        metadata := { timestamp := timestamp, complete := none }
        error := none }

end TogetherProvider

/-- SpanStatus of the execution-context module (execution-context.ts). -/
inductive SpanStatus where
  | RUNNING
  | COMPLETED
  | FAILED
deriving DecidableEq

/-- ArtifactRef (execution-context.ts). -/
structure ArtifactRef where
  artifact_id : String
  label : String
  content_hash : String
  content_type : String
  size_bytes : Nat
  created_at : String

/-- AgentSpan (execution-context.ts).  The constant discriminator field
type: 'agent' is represented by the spanType field. -/
structure AgentSpan where
  spanType : String
  agent_name : String
  repo_name : String
  span_id : String
  parent_span_id : String
  start_time : String
  end_time : Option String
  status : SpanStatus
  failure_reason : Option String
  artifacts : List ArtifactRef
  metadata : Option Json

/-- RepoSpan (execution-context.ts).  The constant discriminator field
type: 'repo' is represented by the spanType field. -/
structure RepoSpan where
  spanType : String
  repo_name : String
  span_id : String
  parent_span_id : String
  execution_id : String
  start_time : String
  end_time : Option String
  status : SpanStatus
  failure_reason : Option String
  agent_spans : List AgentSpan

/-- The ExecutionContext constructor (execution-context.ts lines 984-996):
it stores the execution id and creates the repo span with a fresh span id,
the given parent span id, status RUNNING and no agent spans.  randomUUID()
and new Date().toISOString() enter as the spanId and now parameters. -/
def mkExecutionContext (executionId parentSpanId spanId now : String) : RepoSpan :=
  { spanType := "repo"
    repo_name := "llm-forge"
    span_id := spanId
    parent_span_id := parentSpanId
    execution_id := executionId
    start_time := now
    end_time := none
    status := .RUNNING
    failure_reason := none
    agent_spans := [] }

/-- The agent span startAgentSpan builds (execution-context.ts lines
999-1009): parented under the repo span, repo_name llm-forge, status
RUNNING, empty artifacts. -/
def mkAgentSpan (r : RepoSpan) (agentName : String) (metadata : Option Json)
    (spanId now : String) : AgentSpan :=
  { spanType := "agent"
    agent_name := agentName
    repo_name := "llm-forge"
    span_id := spanId
    parent_span_id := r.span_id
    start_time := now
    end_time := none
    status := .RUNNING
    failure_reason := none
    artifacts := []
    metadata := metadata }

/-- completeAgentSpan (execution-context.ts lines 1014-1017) as the update it
applies to the span it is handed. -/
def completeAgentSpanUpd (now : String) (s : AgentSpan) : AgentSpan :=
  { s with end_time := some now, status := .COMPLETED }

/-- failAgentSpan (execution-context.ts lines 1019-1023) as the update it
applies to the span it is handed. -/
def failAgentSpanUpd (reason now : String) (s : AgentSpan) : AgentSpan :=
  { s with end_time := some now, status := .FAILED, failure_reason := some reason }

/-- attachArtifact (execution-context.ts lines 1025-1027) as the update it
applies to the span it is handed. -/
def attachArtifactUpd (a : ArtifactRef) (s : AgentSpan) : AgentSpan :=
  { s with artifacts := s.artifacts ++ [a] }

/-- Pointwise update of the i-th agent span, modelling the in-place mutation
of a span object that the repo span's agent_spans list aliases. -/
def updateAt : List AgentSpan → Nat → (AgentSpan → AgentSpan) → List AgentSpan
  | [], _, _ => []
  | x :: xs, 0, f => f x :: xs
  | x :: xs, Nat.succ n, f => x :: updateAt xs n f

/-- The failure_reason string finalize joins for the failed agent spans
(execution-context.ts lines 1042-1045).  The JavaScript template renders a
missing failure_reason as the string undefined. -/
def joinFailures (l : List AgentSpan) : String :=
  String.intercalate "; "
    ((l.filter fun s => decide (s.status = SpanStatus.FAILED)).map
      fun s => s.agent_name ++ ": " ++ s.failure_reason.getD "undefined")

/-- finalize (execution-context.ts lines 1029-1049): sets end_time; an empty
agent_spans list is the invalid execution (FAILED, reason exactly
No agent spans produced); otherwise the status is FAILED exactly when some
agent span is FAILED, in which case failure_reason joins the failed spans,
and COMPLETED otherwise. -/
def finalize (now : String) (r : RepoSpan) : RepoSpan :=
  let r1 := { r with end_time := some now }
  if r1.agent_spans.isEmpty then
    { r1 with status := .FAILED, failure_reason := some "No agent spans produced" }
  else if r1.agent_spans.any fun s => decide (s.status = SpanStatus.FAILED) then
    { r1 with status := .FAILED, failure_reason := some (joinFailures r1.agent_spans) }
  else
    { r1 with status := .COMPLETED }

/-- The operations of an ExecutionContext after construction.  The mutating
span operations address the span they were handed by its position in
agent_spans; the fresh uuid and the current time enter as parameters. -/
inductive Op where
  | startAgentSpan (agentName : String) (metadata : Option Json) (spanId now : String)
  | completeAgentSpan (i : Nat) (now : String)
  | failAgentSpan (i : Nat) (reason now : String)
  | attachArtifact (i : Nat) (a : ArtifactRef)
  | finalize (now : String)

/-- One ExecutionContext operation applied to the repo span it owns. -/
def step (r : RepoSpan) : Op → RepoSpan
  | .startAgentSpan name meta sid now =>
    { r with agent_spans := r.agent_spans ++ [mkAgentSpan r name meta sid now] }
  | .completeAgentSpan i now =>
    { r with agent_spans := updateAt r.agent_spans i (completeAgentSpanUpd now) }
  | .failAgentSpan i reason now =>
    { r with agent_spans := updateAt r.agent_spans i (failAgentSpanUpd reason now) }
  | .attachArtifact i a =>
    { r with agent_spans := updateAt r.agent_spans i (attachArtifactUpd a) }
  | .finalize now => finalize now r

/-- The span-hierarchy property of the execution-context module: every agent
span of the repo span is parented at the repo span's id and carries
repo_name llm-forge. -/
def SpanInv (r : RepoSpan) : Prop :=
  ∀ s ∈ r.agent_spans, s.parent_span_id = r.span_id ∧ s.repo_name = "llm-forge"

/-- Header values of the Node HTTP headers record: a string or an array of
strings (an absent header is an absent binding). -/
inductive HeaderValue where
  | str (s : String)
  | arr (ss : List String)

/-- The headers record handed to extractExecutionHeaders. -/
abbrev Headers := List (String × HeaderValue)

/-- getHeader (execution-context.ts lines 1075-1081): the raw value of the
named header, taking the first element when the value is an array (an empty
array yields undefined). -/
def getHeader (headers : Headers) (name : String) : Option String :=
  match headers.lookup name with
  | none => none
  | some (.str s) => some s
  | some (.arr ss) => ss.head?

/-- The extracted execution identifiers. -/
structure ExecHeaders where
  executionId : String
  parentSpanId : String
deriving DecidableEq

/-- extractExecutionHeaders (execution-context.ts lines 1061-1073): null when
the x-parent-span-id header is falsy (absent or the empty string); otherwise
the execution id is the x-execution-id header when that is truthy, else the
fresh randomUUID(), which enters as the uuid parameter. -/
def extractExecutionHeaders (headers : Headers) (uuid : String) :
    Option ExecHeaders :=
  match getHeader headers "x-parent-span-id" with
  | none => none
  | some p =>
    if p = "" then none
    else
      some { executionId :=
               (match getHeader headers "x-execution-id" with
                | none => uuid
                | some e => if e = "" then uuid else e)
             parentSpanId := p }

/-- Scenario chunk of C6: the token-based HuggingFace input carrying the
incremental text Hello. -/
def tokenChunk : Json :=
  .obj [("token", .obj [("text", .str "Hello")])]

/-- Scenario chunk of C5 (spec Scenario B): two choice entries in one chunk,
a content delta at index 0 and a terminal finish_reason stop. -/
def scenarioBChunk : Json :=
  .obj [("choices", .arr
    [.obj [("index", .num 0), ("delta", .obj [("content", .str "Hi")])],
     .obj [("index", .num 0), ("delta", .obj []), ("finish_reason", .str "stop")]])]

/-- Failing input of C4: a chunk carrying both a top-level error object and a
valid choices content field. -/
def errorChoicesChunk : Json :=
  .obj [("error", .obj [("message", .str "rate limited"),
                        ("type", .str "rate_limit_error")]),
        ("choices", .arr
          [.obj [("index", .num 0), ("delta", .obj [("content", .str "Hi")])]])]

/-- An execution context freshly constructed, for concrete instantiation of
the finalize and invariant theorems. -/
def witnessRepo0 : RepoSpan :=
  mkExecutionContext "exec-1" "parent-1" "repo-span-1" "t0"

/-- The witness context after one agent span has been started. -/
def witnessRepo1 : RepoSpan :=
  step witnessRepo0 (Op.startAgentSpan "agent-1" none "agent-span-1" "t0")

/-- The witness context after its single agent span has failed with reason
Broke. -/
def witnessRepo2 : RepoSpan :=
  step witnessRepo1 (Op.failAgentSpan 0 "Broke" "t1")

theorem lookup_none_of_all_ne :
    ∀ (l : List (String × NormalizedStopReason)) (s : String),
      (l.all fun p => p.1 != s) = true → l.lookup s = none := by
  intro l s h
  induction l with
  | nil => rfl
  | cons hd tl ih =>
    rcases hd with ⟨k, v⟩
    simp only [List.all_cons, Bool.and_eq_true, bne_iff_ne, ne_eq] at h
    have hk : (s == k) = false := by
      simp only [beq_eq_false_iff_ne, ne_eq]
      exact fun e => h.1 e.symm
    simp [List.lookup, hk, ih h.2]

theorem updateAt_forall (P : AgentSpan → Prop) (f : AgentSpan → AgentSpan)
    (hf : ∀ s, P s → P (f s)) :
    ∀ (l : List AgentSpan) (i : Nat), (∀ s ∈ l, P s) → ∀ s ∈ updateAt l i f, P s := by
  intro l
  induction l with
  | nil =>
    intro i h s hs
    simp [updateAt] at hs
  | cons x xs ih =>
    intro i h s hs
    cases i with
    | zero =>
      simp only [updateAt, List.mem_cons] at hs
      rcases hs with rfl | hs
      · exact hf x (h x (by simp))
      · exact h s (by simp [hs])
    | succ n =>
      simp only [updateAt, List.mem_cons] at hs
      rcases hs with rfl | hs
      · exact h s (by simp)
      · exact ih n (fun t ht => h t (by simp [ht])) s hs

theorem updateAt_map_span_id (f : AgentSpan → AgentSpan)
    (hf : ∀ s, (f s).span_id = s.span_id) :
    ∀ (l : List AgentSpan) (i : Nat),
      (updateAt l i f).map (fun s => s.span_id) = l.map (fun s => s.span_id) := by
  intro l
  induction l with
  | nil => intro i; rfl
  | cons x xs ih =>
    intro i
    cases i with
    | zero => simp [updateAt, hf]
    | succ n => simp [updateAt, ih n]

theorem finalize_agent_spans (t : String) (r : RepoSpan) :
    (finalize t r).agent_spans = r.agent_spans := by
  unfold finalize
  dsimp only
  split
  · rfl
  · split <;> rfl

theorem finalize_span_id (t : String) (r : RepoSpan) :
    (finalize t r).span_id = r.span_id := by
  unfold finalize
  dsimp only
  split
  · rfl
  · split <;> rfl

theorem finalize_end_time (t : String) (r : RepoSpan) :
    (finalize t r).end_time = some t := by
  unfold finalize
  dsimp only
  split
  · rfl
  · split <;> rfl

/-- C1: for every chunk accepted by the Together validateStreamChunk, the
Together parseStreamChunk of the shipped code does not raise: it returns a
UnifiedStreamResponse (one whose chunk-event sequence is empty). -/
theorem together_validate_imp_parse_ok (chunk : Json) (genId ts : String)
    (_hvalid : TogetherProvider.validateStreamChunk chunk = true) :
    ∃ r, TogetherProvider.parseStreamChunk chunk genId ts = .ok r := by
  exact ⟨_, rfl⟩

/-- C1 witness: the empty object validates and parses without raising. -/
theorem together_validate_imp_parse_ok_witness :
    TogetherProvider.validateStreamChunk (Json.obj []) = true ∧
    ∃ r, TogetherProvider.parseStreamChunk (Json.obj []) "gen-id" "ts" = .ok r :=
  ⟨rfl, together_validate_imp_parse_ok (Json.obj []) "gen-id" "ts" rfl⟩

/-- C2 counterexample: a chunk whose error field holds null has an error
field, yet the HuggingFace validateStreamChunk rejects it, because the code
tests truthiness of obj.error rather than field presence; the claimed
if-and-only-if fails at this input. -/
theorem hf_validate_error_field_counterexample :
    Json.hasField (Json.obj [("error", Json.null)]) "error" = true ∧
    HuggingFaceProvider.validateStreamChunk (Json.obj [("error", Json.null)]) = false :=
  ⟨rfl, rfl⟩

/-- C2 (amended): the HuggingFace validateStreamChunk accepts a chunk exactly
when the chunk has a truthy error value, a token field, an array-valued
choices field, or a generated_text or conversation field; in particular it
rejects null and the empty object, and every input lacking all five. -/
theorem hf_validate_accepts_iff :
    (∀ chunk, HuggingFaceProvider.validateStreamChunk chunk =
      (truthyOpt (chunk.getField "error") || chunk.hasField "token" ||
       isJsonArray (chunk.getField "choices") || chunk.hasField "generated_text" ||
       chunk.hasField "conversation")) ∧
    HuggingFaceProvider.validateStreamChunk Json.null = false ∧
    HuggingFaceProvider.validateStreamChunk (Json.obj []) = false := by
  refine ⟨fun chunk => ?_, rfl, rfl⟩
  cases chunk with
  | null => rfl
  | bool b => rfl
  | num n => rfl
  | str s => rfl
  | arr xs =>
    simp only [HuggingFaceProvider.validateStreamChunk]
    cases h1 : truthyOpt ((Json.arr xs).getField "error") <;>
      cases h2 : (Json.arr xs).hasField "token" <;>
        cases h3 : isJsonArray ((Json.arr xs).getField "choices") <;>
          cases h4 : (Json.arr xs).hasField "generated_text" <;>
            cases h5 : (Json.arr xs).hasField "conversation" <;>
              simp_all
  | obj fields =>
    simp only [HuggingFaceProvider.validateStreamChunk]
    cases h1 : truthyOpt ((Json.obj fields).getField "error") <;>
      cases h2 : (Json.obj fields).hasField "token" <;>
        cases h3 : isJsonArray ((Json.obj fields).getField "choices") <;>
          cases h4 : (Json.obj fields).hasField "generated_text" <;>
            cases h5 : (Json.obj fields).hasField "conversation" <;>
              simp_all

/-- C3: the HuggingFace metadata claims streaming support while the shipped
provider class implements neither validateStreamChunk nor parseStreamChunk:
the capability flag does not reflect the implementation. -/
theorem hf_streaming_flag_mismatch :
    HuggingFaceProvider.capabilities.streaming = true ∧
    HuggingFaceProvider.implementedMethods.contains "validateStreamChunk" = false ∧
    HuggingFaceProvider.implementedMethods.contains "parseStreamChunk" = false :=
  ⟨rfl, rfl, rfl⟩

/-- C4: at a chunk carrying both a top-level error object and valid choices
content, the shipped Together parseStreamChunk returns a response with no
error value at all, dropping the error; the HuggingFace reference
parseStreamChunk, which performs the extraction the claim describes,
populates the error field on the very same chunk. -/
theorem together_parse_drops_error :
    (TogetherProvider.parseStreamChunk errorChoicesChunk "gen-id" "ts").map
      (fun r => r.error) = .ok none ∧
    (HuggingFaceProvider.parseStreamChunk errorChoicesChunk "gen-id" "ts").map
      (fun r => r.error.isSome) = .ok true :=
  ⟨rfl, rfl⟩

/-- C5: at the Scenario B chunk the shipped Together parseStreamChunk emits
no events at all, while the per-choice algorithm the claim describes (the
choice-walking reference implementation printed in the report, embedded here
as the HuggingFace TGI branch) emits exactly a content_block_delta at index
0 with text Hi followed by a message_stop with normalized reason stop. -/
theorem together_parse_empty_chunks_scenarioB :
    (TogetherProvider.parseStreamChunk scenarioBChunk "gen-id" "ts").map
      (fun r => r.chunks) = .ok [] ∧
    (HuggingFaceProvider.parseStreamChunk scenarioBChunk "gen-id" "ts").map
      (fun r => r.chunks) =
      .ok [StreamChunk.content_block_delta (.str "Hi") (some (.num 0)),
           StreamChunk.message_stop NormalizedStopReason.stop] :=
  ⟨rfl, rfl⟩

/-- C6: the HuggingFace parseStreamChunk applied to the token-based chunk
carrying the text Hello produces exactly one content_block_delta event with
text Hello and no error. -/
theorem hf_parse_token_chunk :
    (HuggingFaceProvider.parseStreamChunk tokenChunk "gen-id" "ts").map
      (fun r => (r.chunks, r.error)) =
      .ok ([StreamChunk.content_block_delta (.str "Hello") none], none) :=
  rfl

/-- C7: finish-reason normalization is total: every string maps to exactly
one NormalizedStopReason, every table entry maps to its recorded reason, and
every string outside the table falls to unknown without failing. -/
theorem normalizeStopReason_total :
    (∀ s : String, ∃! r, normalizeStopReason s = r) ∧
    (∀ p ∈ finishReasonTable, normalizeStopReason p.1 = p.2) ∧
    (∀ s : String, (finishReasonTable.all fun p => p.1 != s) = true →
      normalizeStopReason s = .unknown) := by
  refine ⟨fun s => ⟨normalizeStopReason s, rfl, fun y h => h.symm⟩, by decide, ?_⟩
  intro s h
  unfold normalizeStopReason
  rw [lookup_none_of_all_ne finishReasonTable s h]
  rfl

/-- C7 witness: a string outside the table normalizes to unknown. -/
theorem normalizeStopReason_total_witness :
    normalizeStopReason "flux_capacitor" = NormalizedStopReason.unknown :=
  normalizeStopReason_total.2.2 "flux_capacitor" (by decide)

/-- C8: finalize sets the repo span's end_time, leaves every agent span in
place, marks the empty execution FAILED with reason exactly
No agent spans produced, and otherwise is FAILED exactly when some agent
span is FAILED, joining the failed spans' names and reasons into
failure_reason, and COMPLETED when none is. -/
theorem finalize_spec (r : RepoSpan) (t : String) :
    (finalize t r).end_time = some t ∧
    (finalize t r).agent_spans = r.agent_spans ∧
    (r.agent_spans = [] →
      (finalize t r).status = .FAILED ∧
      (finalize t r).failure_reason = some "No agent spans produced") ∧
    (r.agent_spans ≠ [] →
      ((finalize t r).status = .FAILED ↔ ∃ s ∈ r.agent_spans, s.status = .FAILED) ∧
      ((∃ s ∈ r.agent_spans, s.status = .FAILED) →
        (finalize t r).failure_reason = some (joinFailures r.agent_spans)) ∧
      ((∀ s ∈ r.agent_spans, s.status ≠ .FAILED) →
        (finalize t r).status = .COMPLETED)) := by
  refine ⟨finalize_end_time t r, finalize_agent_spans t r, ?_, ?_⟩
  · intro he
    unfold finalize
    dsimp only
    rw [if_pos (by simp [he])]
    exact ⟨rfl, rfl⟩
  · intro hne
    have hempty : r.agent_spans.isEmpty = false := by
      simpa [List.isEmpty_iff] using hne
    by_cases hf : (r.agent_spans.any fun s => decide (s.status = SpanStatus.FAILED)) = true
    · have hex : ∃ s ∈ r.agent_spans, s.status = SpanStatus.FAILED := by
        simpa [List.any_eq_true] using hf
      constructor
      · unfold finalize
        dsimp only
        rw [if_neg (by simp [hempty]), if_pos hf]
        simpa using hex
      constructor
      · intro _
        unfold finalize
        dsimp only
        rw [if_neg (by simp [hempty]), if_pos hf]
      · intro hall
        rcases hex with ⟨s, hs, hsf⟩
        exact absurd hsf (hall s hs)
    · have hnone : ¬ ∃ s ∈ r.agent_spans, s.status = SpanStatus.FAILED := by
        simpa [List.any_eq_true] using hf
      constructor
      · unfold finalize
        dsimp only
        rw [if_neg (by simp [hempty]), if_neg hf]
        constructor
        · intro h
          exact absurd (show SpanStatus.COMPLETED = SpanStatus.FAILED from h) (by decide)
        · intro h
          exact absurd h hnone
      constructor
      · intro h
        exact absurd h hnone
      · intro _
        unfold finalize
        dsimp only
        rw [if_neg (by simp [hempty]), if_neg hf]

/-- C8 witness: a context whose single agent span failed with reason Broke
finalizes to FAILED with the joined failure reason. -/
theorem finalize_spec_witness :
    (finalize "t2" witnessRepo2).status = SpanStatus.FAILED ∧
    (finalize "t2" witnessRepo2).failure_reason = some "agent-1: Broke" := by
  have h := finalize_spec witnessRepo2 "t2"
  have hne : witnessRepo2.agent_spans ≠ [] := List.cons_ne_nil _ _
  have hex : ∃ s ∈ witnessRepo2.agent_spans, s.status = SpanStatus.FAILED :=
    ⟨_, List.Mem.head _, rfl⟩
  exact ⟨(h.2.2.2 hne).1.mpr hex, (h.2.2.2 hne).2.1 hex⟩

/-- C9 counterexample: with x-parent-span-id present and x-execution-id
present but holding the empty string, the code discards the header value and
uses the freshly generated UUID, so the extracted executionId differs from
the header value. -/
theorem extract_headers_empty_exec_id_counterexample :
    extractExecutionHeaders
      [("x-parent-span-id", HeaderValue.str "span-1"),
       ("x-execution-id", HeaderValue.str "")] "generated-uuid" =
      some { executionId := "generated-uuid", parentSpanId := "span-1" } ∧
    ("generated-uuid" : String) ≠ "" :=
  ⟨rfl, by decide⟩

/-- C9 (amended): extractExecutionHeaders returns null exactly when the
x-parent-span-id header is absent or empty (first element taken when the
value is an array); otherwise parentSpanId is that header value and
executionId is the x-execution-id header when that is present and
non-empty, else the freshly generated UUID. -/
theorem extract_headers_spec (headers : Headers) (uuid : String) :
    (extractExecutionHeaders headers uuid = none ↔
      (getHeader headers "x-parent-span-id" = none ∨
       getHeader headers "x-parent-span-id" = some "")) ∧
    (∀ h, extractExecutionHeaders headers uuid = some h →
      getHeader headers "x-parent-span-id" = some h.parentSpanId ∧
      h.executionId = (match getHeader headers "x-execution-id" with
        | none => uuid
        | some e => if e = "" then uuid else e)) := by
  unfold extractExecutionHeaders
  cases hp : getHeader headers "x-parent-span-id" with
  | none => simp
  | some p =>
    by_cases hpe : p = ""
    · subst hpe
      simp
    · simp only [if_neg hpe]
      constructor
      · simp [hpe]
      · intro h hh
        injection hh with hh
        subst hh
        exact ⟨rfl, rfl⟩

/-- C9 witness: with only a parent span header, extraction succeeds and
returns that header value as the parent span id. -/
theorem extract_headers_spec_witness :
    getHeader [("x-parent-span-id", HeaderValue.str "span-9")] "x-parent-span-id" =
      some "span-9" :=
  ((extract_headers_spec [("x-parent-span-id", HeaderValue.str "span-9")] "uuid-9").2
    { executionId := "uuid-9", parentSpanId := "span-9" } rfl).1

/-- C10: the execution context preserves the span hierarchy under every
operation: construction establishes it, every operation preserves it,
startAgentSpan appends exactly one fresh span created RUNNING with no
artifacts, parented at the repo span and carrying repo_name llm-forge, and
the span ids already recorded survive every operation in order, so no
operation removes a span. -/
theorem execution_span_invariants :
    (∀ e p sid t, SpanInv (mkExecutionContext e p sid t)) ∧
    (∀ r op, SpanInv r → SpanInv (step r op)) ∧
    (∀ r name meta sid t,
      (step r (Op.startAgentSpan name meta sid t)).agent_spans =
        r.agent_spans ++ [mkAgentSpan r name meta sid t] ∧
      (mkAgentSpan r name meta sid t).status = SpanStatus.RUNNING ∧
      (mkAgentSpan r name meta sid t).artifacts = [] ∧
      (mkAgentSpan r name meta sid t).parent_span_id = r.span_id ∧
      (mkAgentSpan r name meta sid t).repo_name = "llm-forge") ∧
    (∀ r op, ∃ rest, (step r op).agent_spans.map (fun s => s.span_id) =
      r.agent_spans.map (fun s => s.span_id) ++ rest) := by
  refine ⟨?_, ?_, ?_, ?_⟩
  · intro e p sid t s hs
    simp [mkExecutionContext] at hs
  · intro r op hInv
    cases op with
    | startAgentSpan name meta sid t =>
      intro s hs
      simp only [step, List.mem_append, List.mem_singleton] at hs
      rcases hs with hs | rfl
      · exact hInv s hs
      · exact ⟨rfl, rfl⟩
    | completeAgentSpan i t =>
      intro s hs
      exact updateAt_forall
        (fun a => a.parent_span_id = r.span_id ∧ a.repo_name = "llm-forge")
        (completeAgentSpanUpd t) (fun a ha => ha) r.agent_spans i hInv s hs
    | failAgentSpan i reason t =>
      intro s hs
      exact updateAt_forall
        (fun a => a.parent_span_id = r.span_id ∧ a.repo_name = "llm-forge")
        (failAgentSpanUpd reason t) (fun a ha => ha) r.agent_spans i hInv s hs
    | attachArtifact i a =>
      intro s hs
      exact updateAt_forall
        (fun b => b.parent_span_id = r.span_id ∧ b.repo_name = "llm-forge")
        (attachArtifactUpd a) (fun b hb => hb) r.agent_spans i hInv s hs
    | finalize t =>
      intro s hs
      have hs2 : s ∈ (finalize t r).agent_spans := hs
      rw [finalize_agent_spans] at hs2
      have hid : (step r (Op.finalize t)).span_id = r.span_id := finalize_span_id t r
      rw [hid]
      exact hInv s hs2
  · intro r name meta sid t
    exact ⟨rfl, rfl, rfl, rfl, rfl⟩
  · intro r op
    cases op with
    | startAgentSpan name meta sid t =>
      exact ⟨[(mkAgentSpan r name meta sid t).span_id], by simp [step]⟩
    | completeAgentSpan i t =>
      exact ⟨[], by simp [step, updateAt_map_span_id (completeAgentSpanUpd t) (fun s => rfl)]⟩
    | failAgentSpan i reason t =>
      exact ⟨[], by simp [step, updateAt_map_span_id (failAgentSpanUpd reason t) (fun s => rfl)]⟩
    | attachArtifact i a =>
      exact ⟨[], by simp [step, updateAt_map_span_id (attachArtifactUpd a) (fun s => rfl)]⟩
    | finalize t =>
      exact ⟨[], by simp [step, finalize_agent_spans]⟩

/-- C10 witness: starting one agent span on a fresh context yields a state
satisfying the span-hierarchy property. -/
theorem execution_span_invariants_witness :
    SpanInv (step (mkExecutionContext "exec-w" "parent-w" "repo-w" "t0")
      (Op.startAgentSpan "agent-w" none "span-w" "t1")) :=
  execution_span_invariants.2.1 (mkExecutionContext "exec-w" "parent-w" "repo-w" "t0")
    (Op.startAgentSpan "agent-w" none "span-w" "t1")
    (by intro s hs; simp [mkExecutionContext] at hs)
